import Mathlib

/-!
Verification of the CodePipeline build/deploy stack
(`codepipeline_build_deploy/codepipeline_build_deploy_stack.py`).

The development shallowly embeds the pieces of the stack that the checked
properties are about: the inline CodeBuild buildspec (its environment
variable declaration, its three phases of shell commands, and its output
artifact list), a small semantics for the shell constructs those commands
use (`sed s|..|..|g` as global substring replacement, `${VAR:-default}`
expansion, `$VAR` expansion, `printf` formatting, the `|| true`
failure-tolerance suffix), and the static resource graph the stack
constructor assembles (task definition, listener and target groups,
deployment group, pipeline stages and their artifact wiring).
-/

namespace CpBd

/-! ### Global substring replacement (the semantics of `sed s|pat|repl|g`) -/

/-- Character class of the role-placeholder tokens: capital letters and
underscore.  Both `TASK_ROLE_ARN` and `EXECUTION_ROLE_ARN` consist solely of
such characters. -/
def tokenChar (c : Char) : Bool :=
  c.isUpper || c = '_'

/-- Lift `tokenChar` to an optional character; `none` maps to `false`. -/
def tokenCharOpt : Option Char → Bool
  | none => false
  | some c => tokenChar c

/-- Global leftmost non-overlapping replacement of `pat` by `repl`, the
behaviour of `sed "s|pat|repl|g"` on one line when `pat` is a literal
pattern and `repl` has no `sed` metacharacters. -/
def replaceAll (pat repl : List Char) : List Char → List Char
  | [] => []
  | c :: cs =>
    if h : pat ≠ [] ∧ pat.isPrefixOf (c :: cs) then
      repl ++ replaceAll pat repl ((c :: cs).drop pat.length)
    else
      c :: replaceAll pat repl cs
termination_by s => s.length
decreasing_by
  · simp only [List.length_drop]
    have hlen : 0 < pat.length := List.length_pos.mpr h.1
    simp only [List.length_cons]
    omega
  · simp only [List.length_cons]
    omega

/-! ### The inline buildspec (source lines 81-127)

The command strings below are the Python string values of the
`inline_buildspec` object, phase by phase.  One caveat, recorded where it
matters for claim C2: the `printf` command on source line 110 contains
unescaped double quotes inside a double-quoted Python string, so the Python
file does not parse; `printfJsonCmd` below is the command text as written
between the outermost quotes of that line (the evident intent), and the
separate `rawPrintfSrcLine` scan theorem exhibits the quoting defect. -/

def loginCmd : String :=
  "aws ecr get-login-password --region $\x7bAWS_REGION:-us-east-1\x7d | docker login --username AWS --password-stdin $REPOSITORY_URI"

def awsVersionCmd : String := "aws --version || true"

def preBuildCommands : List String :=
  [ "echo Logging in to Amazon ECR..."
  , awsVersionCmd
  , loginCmd
  , "echo Using image tag: $IMAGE_TAG" ]

def dockerBuildCmd : String := "docker build -t $REPOSITORY_URI:$IMAGE_TAG ."

def buildCommands : List String :=
  [ "echo Build started on \x60date\x60"
  , "echo Building the Docker image..."
  , dockerBuildCmd ]

def dockerPushCmd : String := "docker push $REPOSITORY_URI:$IMAGE_TAG"

def printfJsonCmd : String :=
  "printf \x27[\x7b\"name\":\"web\",\"imageUri\":\"%s\"\x7d]\x27 $REPOSITORY_URI:$IMAGE_TAG > imagedefinitions.json"

def cpTaskdefCmd : String := "cp app/taskdef.json output/taskdef.json || true"

def cpAppspecCmd : String := "cp app/appspec.yaml output/appspec.yaml || true"

def sedTaskCmd : String :=
  "sed -i \"s|TASK_ROLE_ARN|$TASK_ROLE_ARN|g\" output/taskdef.json || true"

def sedExecCmd : String :=
  "sed -i \"s|EXECUTION_ROLE_ARN|$EXECUTION_ROLE_ARN|g\" output/taskdef.json || true"

def postBuildCommands : List String :=
  [ "echo Build completed on \x60date\x60"
  , "echo Pushing the Docker image..."
  , dockerPushCmd
  , "echo Writing imagedefinitions.json for CodeDeploy/CodePipeline"
  , printfJsonCmd
  , "mkdir -p output"
  , cpTaskdefCmd
  , cpAppspecCmd
  , "echo Replacing role placeholders in task definition"
  , sedTaskCmd
  , sedExecCmd ]

/-- Every command of the three buildspec phases, in execution order. -/
def allBuildCommands : List String :=
  preBuildCommands ++ buildCommands ++ postBuildCommands

/-- Declared output artifact files of the buildspec. -/
def artifactFiles : List String :=
  ["imagedefinitions.json", "output/taskdef.json", "output/appspec.yaml"]

/-- Declared value of the `IMAGE_TAG` buildspec environment variable
(source line 85). -/
def imageTagDecl : String := "$\x7bCODEBUILD_RESOLVED_SOURCE_VERSION:-latest\x7d"

/-! ### Failure tolerance: the shell `|| true` suffix -/

/-- Whether a command carries the explicit ignore-failure suffix. -/
def hasOrTrue (c : String) : Bool :=
  " || true".data.isSuffixOf c.data

/-- Command text with the ignore-failure suffix removed (8 characters). -/
def baseCmd (c : String) : String :=
  if hasOrTrue c then String.mk (c.data.take (c.data.length - 8)) else c

/-! ### A small execution model of one buildspec phase

State is the set of files present in the build container.  File-touching
commands (`cp`, `sed -i`, `mkdir`, the `printf` redirection) are
interpreted against that state; commands whose success depends only on the
outside world (`echo`, `aws`, `docker`) are modelled as succeeding, since
the claims under check are about the file-absence failure mode. -/

def cmdSem (c : String) (fs : List String) : Option (List String) :=
  if c = baseCmd cpTaskdefCmd then
    if "app/taskdef.json" ∈ fs then some ("output/taskdef.json" :: fs) else none
  else if c = baseCmd cpAppspecCmd then
    if "app/appspec.yaml" ∈ fs then some ("output/appspec.yaml" :: fs) else none
  else if c = baseCmd sedTaskCmd then
    if "output/taskdef.json" ∈ fs then some fs else none
  else if c = baseCmd sedExecCmd then
    if "output/taskdef.json" ∈ fs then some fs else none
  else if c = "mkdir -p output" then some ("output" :: fs)
  else if c = printfJsonCmd then some ("imagedefinitions.json" :: fs)
  else some fs

/-- Run one command: a command with the ignore-failure suffix never fails;
any other command propagates failure. -/
def runCmd (c : String) (fs : List String) : Option (List String) :=
  if hasOrTrue c then
    match cmdSem (baseCmd c) fs with
    | none => some fs
    | some fs2 => some fs2
  else cmdSem c fs

/-- Result of running a phase: how many commands were attempted, whether
the phase aborted, and the final file set. -/
structure PhaseResult where
  ran : Nat
  aborted : Bool
  files : List String
deriving DecidableEq, Repr

/-- Run the commands of a phase in order, stopping at the first failing
command that does not carry the ignore-failure suffix. -/
def runPhase : List String → List String → PhaseResult
  | [], fs => ⟨0, false, fs⟩
  | c :: rest, fs =>
    match runCmd c fs with
    | none => ⟨1, true, fs⟩
    | some fs2 =>
      let r := runPhase rest fs2
      ⟨r.ran + 1, r.aborted, r.files⟩

/-! ### printf formatting and the image-definitions descriptor -/

/-- POSIX `printf` with string conversions: `%s` consumes the next
argument (empty if exhausted), `%%` emits a percent sign, anything else is
literal.  Substituted arguments are not rescanned. -/
def printfFmt : List Char → List (List Char) → List Char
  | [], _ => []
  | '%' :: 's' :: r, a :: as => a ++ printfFmt r as
  | '%' :: 's' :: r, [] => printfFmt r []
  | '%' :: '%' :: r, as => '%' :: printfFmt r as
  | c :: r, as => c :: printfFmt r as

/-- Format string of the descriptor-emitting `printf` (source line 110). -/
def imagedefsFmt : String := "[\x7b\"name\":\"web\",\"imageUri\":\"%s\"\x7d]"

/-- Text written to `imagedefinitions.json` by the post-build phase, for
repository URI `R` and image tag `T`: the single (unquoted) shell argument
`$REPOSITORY_URI:$IMAGE_TAG` formatted through `imagedefsFmt`. -/
def imagedefsContent (R T : String) : String :=
  String.mk (printfFmt imagedefsFmt.data [(R ++ ":" ++ T).data])

/-- Consume an expected literal from the front of the input. -/
def dropLit (pre s : List Char) : Option (List Char) :=
  if pre.isPrefixOf s then some (s.drop pre.length) else none

/-- Scan a JSON string body up to its closing double quote. -/
def scanStr : List Char → Option (List Char × List Char)
  | [] => none
  | c :: r =>
    if c = '"' then some ([], r)
    else
      match scanStr r with
      | none => none
      | some (a, b) => some (c :: a, b)

/-- Modelled from the spec: a decoder for the descriptor shape the spec
describes, "a one-element list mapping a container name to an image
reference".  It accepts exactly the texts of the form
`[medium-brace "name":"N","imageUri":"U" close-brace]` with quote-free `N`
and `U`, and returns the association list `[(N, U)]`. -/
def parseImageDefs (s : List Char) : Option (List (String × String)) :=
  match dropLit "[\x7b\"name\":\"".data s with
  | none => none
  | some s1 =>
    match scanStr s1 with
    | none => none
    | some (n, s2) =>
      match dropLit ",\"imageUri\":\"".data s2 with
      | none => none
      | some s3 =>
        match scanStr s3 with
        | none => none
        | some (u, s4) =>
          match dropLit "\x7d]".data s4 with
          | none => none
          | some s5 =>
            if s5 = [] then some [(String.mk n, String.mk u)] else none

/-! ### Shell variable expansion -/

/-- Split a leading run of variable-name characters (the environment
variables the buildspec references are words over capitals and
underscore). -/
def splitVar : List Char → List Char × List Char
  | [] => ([], [])
  | c :: cs =>
    if tokenChar c then
      let p := splitVar cs
      (c :: p.1, p.2)
    else ([], c :: cs)

/-- Emit the value of a finished `$`-reference: a bare `$` when no name
characters followed it, otherwise the environment value of the name. -/
def flushVar (env : String → List Char) (acc : List Char) : List Char :=
  if acc = [] then ['$'] else env (String.mk acc)

/-- Worker for `expandEnv`: the first argument is `none` during plain
copying and `some acc` while reading the name of a `$`-reference. -/
def expandGo (env : String → List Char) : Option (List Char) → List Char → List Char
  | none, [] => []
  | some acc, [] => flushVar env acc
  | none, c :: r =>
    if c = '$' then expandGo env (some []) r else c :: expandGo env none r
  | some acc, c :: r =>
    if tokenChar c then expandGo env (some (acc ++ [c])) r
    else if c = '$' then flushVar env acc ++ expandGo env (some []) r
    else flushVar env acc ++ c :: expandGo env none r

/-- Expand `$VAR` references against an environment; substituted values
are not rescanned. -/
def expandEnv (env : String → List Char) (s : List Char) : List Char :=
  expandGo env none s

/-- Environment of the docker build/push commands: `REPOSITORY_URI` is the
repository URI, `IMAGE_TAG` the resolved tag; other references are
irrelevant to them. -/
def dockerEnv (R tag : String) : String → List Char := fun n =>
  if n = "REPOSITORY_URI" then R.data
  else if n = "IMAGE_TAG" then tag.data
  else []

/-! ### The `medium-brace VAR:-default` declaration of `IMAGE_TAG` -/

/-- Scan the default word of a parameter expansion up to the closing brace
at the very end of the text. -/
def scanDefault : List Char → Option (List Char)
  | [] => none
  | c :: rest =>
    if c = '\x7d' then (if rest = [] then some [] else none)
    else
      match scanDefault rest with
      | none => none
      | some d => some (c :: d)

/-- Parse a whole-string shell parameter expansion of the use-default form,
returning the parameter name and the default word. -/
def parseColonDash (s : String) : Option (String × String) :=
  match s.data with
  | '$' :: '\x7b' :: rest =>
    let p := splitVar rest
    match p.2 with
    | ':' :: '-' :: rest2 =>
      match scanDefault rest2 with
      | some d => if p.1 = [] then none else some (String.mk p.1, String.mk d)
      | none => none
    | _ => none
  | _ => none

/-- POSIX use-default expansion `\x7bVAR:-word\x7d`: the variable's value
when set and non-empty, otherwise the default word. -/
def colonDashExpand (v : Option String) (dflt : String) : String :=
  match v with
  | none => dflt
  | some s => if s = "" then dflt else s

/-- The image tag the buildspec resolves, as a function of the
`CODEBUILD_RESOLVED_SOURCE_VERSION` value available to the build: the
declared `IMAGE_TAG` expression evaluated by `colonDashExpand`. -/
def resolveImageTag (v : Option String) : String :=
  match parseColonDash imageTagDecl with
  | some (_, d) => colonDashExpand v d
  | none => imageTagDecl

/-! ### Python double-quoted string literals (for source line 110) -/

/-- Scan the body of a Python double-quoted string literal after its
opening quote: stop at the first unescaped double quote, keeping escape
pairs intact; return the literal body and the unconsumed remainder of the
line. -/
def pyDQTail : List Char → Option (List Char × List Char)
  | [] => none
  | c :: r =>
    if c = '"' then some ([], r)
    else if c = '\\' then
      match r with
      | [] => none
      | e :: r2 =>
        match pyDQTail r2 with
        | none => none
        | some (a, b) => some (c :: e :: a, b)
    else
      match pyDQTail r with
      | none => none
      | some (a, b) => some (c :: a, b)

/-- Scan a Python double-quoted string literal from the start of the text:
requires an opening quote, returns the body and the remainder after the
closing quote. -/
def pyDQLiteral (s : List Char) : Option (List Char × List Char) :=
  match s with
  | c :: r => if c = '"' then pyDQTail r else none
  | [] => none

/-- Source line 110 of the stack file, exactly as committed (leading
whitespace removed): the descriptor-emitting buildspec entry. -/
def rawPrintfSrcLine : String :=
  "\"printf \x27[\x7b\"name\":\"web\",\"imageUri\":\"%s\"\x7d]\x27 $REPOSITORY_URI:$IMAGE_TAG > imagedefinitions.json\","

/-! ### The static resource graph assembled by the stack constructor -/

/-- Inputs the stack construction depends on: the target environment, the
`connectionArn` context parameter (`self.node.try_get_context`, which
yields `none` when unset), and the identifier produced by the default-VPC
lookup. -/
structure StackInputs where
  account : String
  region : String
  connectionArnContext : Option String
  defaultVpcId : String
deriving DecidableEq, Repr

/-- Ambient, run-varying quantities a constructor could in principle read
(clock, randomness).  The source makes no such call, so `buildStack` takes
this record and ignores it; claim C9 is the statement that it does. -/
structure Ambient where
  wallClock : Nat
  randomSeed : Nat
deriving DecidableEq, Repr

/-- Autoscaling capacity added to the cluster (source lines 24-30). -/
structure CapacityDef where
  instanceType : String
  machineImage : String
  minCapacity : Nat
  subnetType : String
deriving DecidableEq, Repr

/-- Container port mapping (source line 42). -/
structure PortMappingDef where
  containerPort : Nat
deriving DecidableEq, Repr

/-- Container added to the task definition (source lines 34-42). -/
structure ContainerDef where
  name : String
  imageRepo : String
  memoryReservationMiB : Nat
  cpu : Nat
  logStreamPrefix : String
  portMappings : List PortMappingDef
deriving DecidableEq, Repr

/-- EC2 task definition (source lines 33-42). -/
structure TaskDefn where
  id : String
  containers : List ContainerDef
deriving DecidableEq, Repr

/-- Target-group health check (source lines 50 and 55). -/
structure HealthCheckCfg where
  path : String
  port : String
deriving DecidableEq, Repr

/-- Application target group (source lines 47-56). -/
structure TargetGroupDef where
  id : String
  port : Nat
  targetType : String
  healthCheck : HealthCheckCfg
deriving DecidableEq, Repr

/-- ALB listener (source lines 45 and 57): its port, whether its security
group is opened to any peer, the target groups of its default action, and
any further listener rules (the source adds none). -/
structure ListenerDef where
  port : Nat
  openToAnyPeer : Bool
  defaultTargetGroups : List String
  extraRules : List (List String)
deriving DecidableEq, Repr

/-- ECS service (source lines 60-65). -/
structure ServiceDef where
  cluster : String
  taskDef : String
  deploymentController : String
deriving DecidableEq, Repr

/-- Blue/green configuration of the deployment group (source lines 72-76). -/
structure BlueGreenCfg where
  listenerRef : String
  blueTargetGroup : String
  greenTargetGroup : String
deriving DecidableEq, Repr

/-- CodeDeploy ECS deployment group (source lines 69-77). -/
structure DeployGroupDef where
  service : String
  blueGreen : BlueGreenCfg
deriving DecidableEq, Repr

/-- Environment variable of the build project (source lines 137-142). -/
structure EnvVarDef where
  name : String
  value : String
deriving DecidableEq, Repr

/-- CodeBuild project (source lines 129-144) together with its inline
buildspec content. -/
structure BuildProjectDef where
  privileged : Bool
  buildImage : String
  computeType : String
  imageTagVar : String
  preBuild : List String
  build : List String
  postBuild : List String
  artifacts : List String
  envVars : List EnvVarDef
deriving DecidableEq, Repr

/-- CodeStar-connections source action (source lines 159-166). -/
structure SourceActionDef where
  actionName : String
  owner : String
  repo : String
  branch : String
  connectionArn : String
  output : String
deriving DecidableEq, Repr

/-- CodeBuild pipeline action (source lines 174-179). -/
structure BuildActionDef where
  actionName : String
  project : String
  input : String
  outputs : List String
deriving DecidableEq, Repr

/-- Container-image input of the deploy action (source lines 190-196). -/
structure ContainerImageInputDef where
  input : String
  taskDefinitionPlaceholder : String
deriving DecidableEq, Repr

/-- CodeDeploy ECS deploy action (source lines 185-197). -/
structure DeployActionDef where
  actionName : String
  deploymentGroup : String
  appSpecTemplateInput : String
  taskDefinitionTemplateInput : String
  containerImageInputs : List ContainerImageInputDef
deriving DecidableEq, Repr

/-- Input/output interface of a pipeline action, used for the artifact-flow
property. -/
structure ActionFlow where
  name : String
  inputs : List String
  outputs : List String
deriving DecidableEq, Repr

/-- The complete graph of entity attributes the constructor assembles. -/
structure StackGraph where
  vpcId : String
  imageRepoId : String
  clusterId : String
  capacity : CapacityDef
  taskDef : TaskDefn
  albId : String
  listener : ListenerDef
  blueTG : TargetGroupDef
  greenTG : TargetGroupDef
  service : ServiceDef
  deployGroup : DeployGroupDef
  buildProject : BuildProjectDef
  sourceAction : SourceActionDef
  buildAction : BuildActionDef
  deployAction : DeployActionDef
  pipelineName : String
  pipelineStages : List (String × List ActionFlow)
  albUrlOut : String
deriving DecidableEq, Repr

/-- Hardcoded fallback connection ARN (source lines 152-153). -/
def fallbackConnectionArn : String :=
  "arn:aws:codestar-connections:us-east-1:595922124144:connection/6ff91833-3f77-4334-8ba2-3573bbd3015d"

/-- Python `a or b` on an optional string: `b` when `a` is `None` or empty
(falsy), otherwise the string itself. -/
def pyOrStr (a : Option String) (b : String) : String :=
  match a with
  | none => b
  | some s => if s = "" then b else s

/-- Resolution of the source action's connection identifier
(source lines 152-153). -/
def connection_arn (ctx : Option String) : String :=
  pyOrStr ctx fallbackConnectionArn

/-- Artifact interface of the source action: no inputs, one output. -/
def sourceActionFlow (a : SourceActionDef) : ActionFlow :=
  ⟨a.actionName, [], [a.output]⟩

/-- Artifact interface of the build action. -/
def buildActionFlow (a : BuildActionDef) : ActionFlow :=
  ⟨a.actionName, [a.input], a.outputs⟩

/-- Artifact interface of the deploy action: the app-spec template input,
the task-definition template input, and each container-image input. -/
def deployActionFlow (a : DeployActionDef) : ActionFlow :=
  ⟨a.actionName,
    a.appSpecTemplateInput :: a.taskDefinitionTemplateInput ::
      a.containerImageInputs.map (fun i => i.input), []⟩

/-- The stack constructor (source lines 16-201) as a graph builder.  Each
field carries the literal attribute values of the corresponding resource
declaration; deploy-time references (repository URI, role ARNs) are
embedded as symbolic reference strings, since the toolkit resolves them
only at provider reconciliation time. -/
def buildStack (inp : StackInputs) (amb : Ambient) : StackGraph :=
  let source_action : SourceActionDef :=
    ⟨"GitHub_Source", "codeavatar1", "code-pipeline-manual-arm-cdk", "main",
      connection_arn inp.connectionArnContext, "source_output"⟩
  let build_action : BuildActionDef :=
    ⟨"Build_ARM_Image", "BuildImage", "source_output", ["build_output"]⟩
  let deploy_action : DeployActionDef :=
    ⟨"BlueGreenDeploy", "CodeDeployGroup", "build_output", "build_output",
      [⟨"build_output", "IMAGE1_NAME"⟩]⟩
  { vpcId := inp.defaultVpcId
  , imageRepoId := "ImageRepo"
  , clusterId := "EcsCluster"
  , capacity := ⟨"t4g.micro", "EcsOptimizedImage.amazonLinux2(ARM)", 1, "PUBLIC"⟩
  , taskDef := ⟨"Ec2TaskDef", [⟨"web", "ImageRepo", 256, 256, "web-arm", [⟨80⟩]⟩]⟩
  , albId := "ALB"
  , listener := ⟨80, true, ["BlueTG"], []⟩
  , blueTG := ⟨"BlueTG", 80, "INSTANCE", ⟨"/", "80"⟩⟩
  , greenTG := ⟨"GreenTG", 80, "INSTANCE", ⟨"/", "80"⟩⟩
  , service := ⟨"EcsCluster", "Ec2TaskDef", "CODE_DEPLOY"⟩
  , deployGroup := ⟨"Ec2Service", ⟨"HttpListener", "BlueTG", "GreenTG"⟩⟩
  , buildProject :=
      ⟨true, "LinuxArmBuildImage.AMAZON_LINUX_2_STANDARD_3_0", "SMALL",
        imageTagDecl, preBuildCommands, buildCommands, postBuildCommands,
        artifactFiles,
        [ ⟨"REPOSITORY_URI", "ImageRepo.repositoryUri"⟩
        , ⟨"TASK_ROLE_ARN", "Ec2TaskDef.taskRole.roleArn"⟩
        , ⟨"EXECUTION_ROLE_ARN", "Ec2TaskDef.executionRole.roleArn"⟩
        , ⟨"TASK_DEFINITION_ARN", "Ec2TaskDef.taskDefinitionArn"⟩ ]⟩
  , sourceAction := source_action
  , buildAction := build_action
  , deployAction := deploy_action
  , pipelineName := "EcsArmPipeline"
  , pipelineStages :=
      [ ("Source", [sourceActionFlow source_action])
      , ("Build", [buildActionFlow build_action])
      , ("Deploy", [deployActionFlow deploy_action]) ]
  , albUrlOut := "http://ALB.loadBalancerDnsName" }

/-- Artifact-flow check: every input an action consumes was output by an
action of a STRICTLY earlier stage. -/
def consumesOnlyEarlier : List (String × List ActionFlow) → List String → Bool
  | [], _ => true
  | st :: rest, seen =>
    st.2.all (fun a => a.inputs.all (fun i => seen.contains i)) &&
      consumesOnlyEarlier rest
        (seen ++ (st.2.map (fun a => a.outputs)).flatten)

/-- The two role-placeholder tokens of the deployment templates
(source lines 115-116). -/
def taskRoleTok : List Char := "TASK_ROLE_ARN".data

/-- The execution-role placeholder token. -/
def execRoleTok : List Char := "EXECUTION_ROLE_ARN".data

/-- Delimiter conditions on a substituted value under which global
substitution cannot splice new placeholder tokens across replacement
boundaries: the value is non-empty, contains neither token, and both its
first and last characters lie outside the uppercase/underscore placeholder
alphabet.  Resolved IAM role ARNs always satisfy the leading condition
(the lowercase `arn:` scheme), but the trailing condition is a genuine
restriction: the provider-generated role names of this stack can end in an
uppercase alphanumeric suffix, and for such values the unconditional claim
fails (see the C1 counterexample). -/
def benignValue (r : List Char) : Prop :=
  r ≠ [] ∧ tokenCharOpt r.head? = false ∧ tokenCharOpt r.getLast? = false ∧
    ¬ (taskRoleTok <:+: r) ∧ ¬ (execRoleTok <:+: r)

instance (r : List Char) : Decidable (benignValue r) := by
  unfold benignValue
  infer_instance

/-- The post-build template rewrite (source lines 115-116): first
`sed "s|TASK_ROLE_ARN|$TASK_ROLE_ARN|g"`, then
`sed "s|EXECUTION_ROLE_ARN|$EXECUTION_ROLE_ARN|g"`, applied to the staged
`output/taskdef.json` text. -/
def sedRewrite (taskArn execArn t : List Char) : List Char :=
  replaceAll execRoleTok execArn (replaceAll taskRoleTok taskArn t)

/-- File set present at the start of the post-build phase, parametrised by
whether the two optional template files exist in the source checkout. -/
def postBuildInitFiles (b₁ b₂ : Bool) : List String :=
  (if b₁ then ["app/taskdef.json"] else []) ++
    (if b₂ then ["app/appspec.yaml"] else [])

/-! ## Supporting lemmas -/

theorem replaceAll_nil (pat repl : List Char) : replaceAll pat repl [] = [] := by
  simp [replaceAll]

theorem replaceAll_pos (pat repl : List Char) (c : Char) (cs : List Char)
    (h1 : pat ≠ []) (h2 : pat.isPrefixOf (c :: cs)) :
    replaceAll pat repl (c :: cs) =
      repl ++ replaceAll pat repl ((c :: cs).drop pat.length) := by
  rw [replaceAll]
  simp [h1, h2]

theorem replaceAll_neg (pat repl : List Char) (c : Char) (cs : List Char)
    (h : ¬ (pat ≠ [] ∧ pat.isPrefixOf (c :: cs))) :
    replaceAll pat repl (c :: cs) = c :: replaceAll pat repl cs := by
  rw [replaceAll]
  simp only [dif_neg h]

/-- Splitting a list-prefix of a concatenation: either it is a prefix of the
first part, or it extends the whole first part into the second. -/
theorem pre_split {α : Type} {l a b : List α} (h : l <+: a ++ b) :
    l <+: a ∨ ∃ l₂, l = a ++ l₂ ∧ l₂ <+: b := by
  induction a generalizing l with
  | nil => exact Or.inr ⟨l, rfl, h⟩
  | cons x a' ih =>
    match l with
    | [] => exact Or.inl List.nil_prefix
    | y :: l' =>
      rw [List.cons_append] at h
      obtain ⟨rfl, h'⟩ := List.cons_prefix_cons.mp h
      rcases ih h' with h1 | ⟨l₂, rfl, h2⟩
      · exact Or.inl (List.cons_prefix_cons.mpr ⟨rfl, h1⟩)
      · exact Or.inr ⟨l₂, by simp, h2⟩

/-- Splitting an occurrence inside a concatenation: the occurrence lies in
the first part, in the second part, or straddles the boundary. -/
theorem occ_split {α : Type} {l a b : List α} (h : l <:+: a ++ b) :
    l <:+: a ∨ l <:+: b ∨
      ∃ l₁ l₂, l = l₁ ++ l₂ ∧ l₁ ≠ [] ∧ l₂ ≠ [] ∧ l₁ <:+ a ∧ l₂ <+: b := by
  induction a with
  | nil => exact Or.inr (Or.inl h)
  | cons x a' ih =>
    rw [List.cons_append] at h
    rcases List.infix_cons_iff.mp h with hpre | hinf
    · rw [← List.cons_append] at hpre
      rcases pre_split hpre with h1 | ⟨l₂, rfl, h2⟩
      · exact Or.inl h1.isInfix
      · match l₂, h2 with
        | [], _ => exact Or.inl (by simpa using List.infix_refl (x :: a'))
        | z :: l₂', h2 =>
          exact Or.inr (Or.inr ⟨x :: a', z :: l₂', rfl, List.cons_ne_nil x a',
            List.cons_ne_nil z l₂', List.suffix_refl (x :: a'), h2⟩)
    · rcases ih hinf with h1 | h1 | ⟨l₁, l₂, rfl, hne₁, hne₂, hsuf, hpre₂⟩
      · exact Or.inl (h1.trans (List.suffix_cons x a').isInfix)
      · exact Or.inr (Or.inl h1)
      · exact Or.inr (Or.inr ⟨l₁, l₂, rfl, hne₁, hne₂,
          hsuf.trans (List.suffix_cons x a'), hpre₂⟩)

/-- Membership of the last element of a list. -/
theorem getLast?_mem' {l : List Char} {d : Char} (h : l.getLast? = some d) : d ∈ l := by
  obtain ⟨hne, rfl⟩ := List.mem_getLast?_eq_getLast h
  exact List.getLast_mem hne

/-- A nonempty suffix determines the last element. -/
theorem getLast?_of_suf {l r : List Char} (hs : l <:+ r) (hne : l ≠ []) :
    r.getLast? = l.getLast? := by
  obtain ⟨u, rfl⟩ := hs
  exact List.getLast?_append_of_ne_nil u hne

/-- Character lifting through `replaceAll`: a nonempty block of
placeholder-alphabet characters that starts the rewritten text must already
start the original text, because the substituted value opens with a
character outside that alphabet. -/
theorem tok_lift (pat repl : List Char)
    (hhead : tokenCharOpt repl.head? = false) (hrepl : repl ≠ []) :
    ∀ n s q, s.length ≤ n → q ≠ [] → (∀ c ∈ q, tokenChar c = true) →
      q <+: replaceAll pat repl s → q <+: s := by
  obtain ⟨r0, r', hre⟩ : ∃ r0 r', repl = r0 :: r' := by
    cases repl with
    | nil => exact absurd rfl hrepl
    | cons r0 r' => exact ⟨r0, r', rfl⟩
  subst hre
  intro n
  induction n with
  | zero =>
    intro s q hs hq _ hpre
    have hsnil : s = [] := List.length_eq_zero.mp (Nat.le_zero.mp hs)
    subst hsnil
    rw [replaceAll_nil] at hpre
    exact absurd (List.prefix_nil.mp hpre) hq
  | succ n ih =>
    intro s q hs hq hqtok hpre
    match s with
    | [] =>
      rw [replaceAll_nil] at hpre
      exact absurd (List.prefix_nil.mp hpre) hq
    | c :: cs =>
      by_cases hcase : pat ≠ [] ∧ pat.isPrefixOf (c :: cs)
      · rw [replaceAll_pos pat (r0 :: r') c cs hcase.1 hcase.2] at hpre
        match q, hq with
        | q0 :: q'', _ =>
          rw [List.cons_append] at hpre
          obtain ⟨rfl, -⟩ := List.cons_prefix_cons.mp hpre
          have h1 : tokenChar q0 = true := hqtok q0 (List.mem_cons_self q0 q'')
          simp only [List.head?_cons, tokenCharOpt] at hhead
          rw [hhead] at h1
          exact absurd h1 (by simp)
      · rw [replaceAll_neg pat (r0 :: r') c cs hcase] at hpre
        match q, hq with
        | q0 :: q'', _ =>
          obtain ⟨rfl, hq'⟩ := List.cons_prefix_cons.mp hpre
          match q'' with
          | [] => exact List.cons_prefix_cons.mpr ⟨rfl, List.nil_prefix⟩
          | q1 :: q''' =>
            have hlen : cs.length ≤ n := by
              simp only [List.length_cons] at hs
              omega
            have : q1 :: q''' <+: cs := by
              refine ih cs (q1 :: q''') hlen (List.cons_ne_nil q1 q''') ?_ hq'
              intro d hd
              exact hqtok d (List.mem_cons_of_mem q0 hd)
            exact List.cons_prefix_cons.mpr ⟨rfl, this⟩

/-- The boundary-straddling case is impossible when the pattern part that
ends inside the substituted value consists of placeholder-alphabet
characters while the substituted value ends outside that alphabet. -/
theorem no_straddle {p l₁ l₂ repl : List Char}
    (hsplit : p = l₁ ++ l₂) (hne₁ : l₁ ≠ []) (hsuf : l₁ <:+ repl)
    (hptok : ∀ c ∈ p, tokenChar c = true)
    (hlast : tokenCharOpt repl.getLast? = false) : False := by
  obtain ⟨d, hd⟩ : ∃ d, l₁.getLast? = some d := by
    rcases List.eq_nil_or_concat l₁ with h | ⟨L, b, rfl⟩
    · exact absurd h hne₁
    · exact ⟨b, by simp⟩
  have h1 : repl.getLast? = some d := (getLast?_of_suf hsuf hne₁).trans hd
  have h2 : d ∈ p := hsplit ▸ List.mem_append_left l₂ (getLast?_mem' hd)
  have h3 : tokenChar d = true := hptok d h2
  rw [h1] at hlast
  simp only [tokenCharOpt] at hlast
  rw [hlast] at h3
  exact absurd h3 (by simp)

/-- After globally substituting `repl` for `pat`, no occurrence of `pat`
remains, provided `pat` is a nonempty word over the placeholder alphabet and
`repl` does not contain `pat` and begins and ends outside that alphabet. -/
theorem replaceAll_no_tok (pat repl : List Char) (hpat : pat ≠ [])
    (hptok : ∀ c ∈ pat, tokenChar c = true)
    (hhead : tokenCharOpt repl.head? = false)
    (hlast : tokenCharOpt repl.getLast? = false)
    (hrepl : repl ≠ [])
    (hnot : ¬ pat <:+: repl) :
    ∀ n s, s.length ≤ n → ¬ pat <:+: replaceAll pat repl s := by
  intro n
  induction n with
  | zero =>
    intro s hs
    have hsnil : s = [] := List.length_eq_zero.mp (Nat.le_zero.mp hs)
    subst hsnil
    rw [replaceAll_nil]
    intro hocc
    exact hpat (List.eq_nil_of_infix_nil hocc)
  | succ n ih =>
    intro s hs
    match s with
    | [] =>
      rw [replaceAll_nil]
      intro hocc
      exact hpat (List.eq_nil_of_infix_nil hocc)
    | c :: cs =>
      by_cases hcase : pat ≠ [] ∧ pat.isPrefixOf (c :: cs)
      · rw [replaceAll_pos pat repl c cs hcase.1 hcase.2]
        intro hocc
        have hdrop : ((c :: cs).drop pat.length).length ≤ n := by
          have hp1 : 0 < pat.length := List.length_pos.mpr hpat
          simp only [List.length_drop, List.length_cons]
          simp only [List.length_cons] at hs
          omega
        rcases occ_split hocc with h1 | h1 | ⟨l₁, l₂, hsplit, hne₁, hne₂, hsuf, hpre₂⟩
        · exact hnot h1
        · exact ih ((c :: cs).drop pat.length) hdrop h1
        · exact no_straddle hsplit hne₁ hsuf hptok hlast
      · rw [replaceAll_neg pat repl c cs hcase]
        intro hocc
        have hlen : cs.length ≤ n := by
          simp only [List.length_cons] at hs
          omega
        rcases List.infix_cons_iff.mp hocc with hpre | hinf
        · match pat, hpat with
          | p0 :: p', _ =>
            obtain ⟨rfl, hp'⟩ := List.cons_prefix_cons.mp hpre
            match p' with
            | [] =>
              exact hcase ⟨List.cons_ne_nil p0 [], List.isPrefixOf_iff_prefix.mpr
                (List.cons_prefix_cons.mpr ⟨rfl, List.nil_prefix⟩)⟩
            | p1 :: p'' =>
              have hq : p1 :: p'' <+: cs := by
                refine tok_lift (p0 :: p1 :: p'') repl hhead hrepl n cs (p1 :: p'')
                  hlen (List.cons_ne_nil p1 p'') ?_ hp'
                intro d hd
                exact hptok d (List.mem_cons_of_mem p0 hd)
              exact hcase ⟨List.cons_ne_nil p0 (p1 :: p''), List.isPrefixOf_iff_prefix.mpr
                (List.cons_prefix_cons.mpr ⟨rfl, hq⟩)⟩
        · exact ih cs hlen hinf

/-- Globally substituting `repl` for `pat` does not create occurrences of a
second placeholder word `pat'` when the text had none, under the same
boundary conditions on `repl`. -/
theorem replaceAll_keeps_absent (pat repl pat' : List Char) (hpat : pat ≠ [])
    (hp' : pat' ≠ []) (hptok' : ∀ c ∈ pat', tokenChar c = true)
    (hhead : tokenCharOpt repl.head? = false)
    (hlast : tokenCharOpt repl.getLast? = false)
    (hrepl : repl ≠ [])
    (hnot : ¬ pat' <:+: repl) :
    ∀ n s, s.length ≤ n → ¬ pat' <:+: s → ¬ pat' <:+: replaceAll pat repl s := by
  intro n
  induction n with
  | zero =>
    intro s hs _
    have hsnil : s = [] := List.length_eq_zero.mp (Nat.le_zero.mp hs)
    subst hsnil
    rw [replaceAll_nil]
    intro hocc
    exact hp' (List.eq_nil_of_infix_nil hocc)
  | succ n ih =>
    intro s hs habs
    match s with
    | [] =>
      rw [replaceAll_nil]
      intro hocc
      exact hp' (List.eq_nil_of_infix_nil hocc)
    | c :: cs =>
      by_cases hcase : pat ≠ [] ∧ pat.isPrefixOf (c :: cs)
      · rw [replaceAll_pos pat repl c cs hcase.1 hcase.2]
        intro hocc
        obtain ⟨t, ht⟩ : ∃ t, pat ++ t = c :: cs :=
          List.isPrefixOf_iff_prefix.mp hcase.2
        have hdropt : (c :: cs).drop pat.length = t := by
          rw [← ht, List.drop_left]
        have hdrop : ((c :: cs).drop pat.length).length ≤ n := by
          have hp1 : 0 < pat.length := List.length_pos.mpr hpat
          simp only [List.length_drop, List.length_cons]
          simp only [List.length_cons] at hs
          omega
        have htabs : ¬ pat' <:+: (c :: cs).drop pat.length := by
          rw [hdropt]
          intro hx
          exact habs (hx.trans (List.IsSuffix.isInfix ⟨pat, ht⟩))
        rcases occ_split hocc with h1 | h1 | ⟨l₁, l₂, hsplit, hne₁, hne₂, hsuf, hpre₂⟩
        · exact hnot h1
        · exact ih ((c :: cs).drop pat.length) hdrop htabs h1
        · exact no_straddle hsplit hne₁ hsuf hptok' hlast
      · rw [replaceAll_neg pat repl c cs hcase]
        intro hocc
        have hlen : cs.length ≤ n := by
          simp only [List.length_cons] at hs
          omega
        have hcsabs : ¬ pat' <:+: cs := by
          intro hx
          exact habs (hx.trans (List.suffix_cons c cs).isInfix)
        rcases List.infix_cons_iff.mp hocc with hpre | hinf
        · match pat', hp' with
          | p0 :: p', _ =>
            obtain ⟨rfl, hpq⟩ := List.cons_prefix_cons.mp hpre
            match p' with
            | [] =>
              exact habs (List.cons_prefix_cons.mpr
                ⟨rfl, List.nil_prefix⟩ : p0 :: ([] : List Char) <+: p0 :: cs).isInfix
            | p1 :: p'' =>
              have hq : p1 :: p'' <+: cs := by
                refine tok_lift pat repl hhead hrepl n cs (p1 :: p'')
                  hlen (List.cons_ne_nil p1 p'') ?_ hpq
                intro d hd
                exact hptok' d (List.mem_cons_of_mem p0 hd)
              exact habs (List.cons_prefix_cons.mpr ⟨rfl, hq⟩ :
                p0 :: p1 :: p'' <+: p0 :: cs).isInfix
        · exact ih cs hlen hcsabs hinf

theorem dropLit_exact (pre rest : List Char) :
    dropLit pre (pre ++ rest) = some rest := by
  simp [dropLit, List.isPrefixOf_iff_prefix.mpr (List.prefix_append pre rest),
    List.drop_left]

theorem scanStr_concat (a rest : List Char) (ha : ∀ c ∈ a, c ≠ '"') :
    scanStr (a ++ '"' :: rest) = some (a, rest) := by
  induction a with
  | nil => simp [scanStr]
  | cons c a' ih =>
    have hc : c ≠ '"' := ha c (List.mem_cons_self c a')
    have hrec := ih (fun d hd => ha d (List.mem_cons_of_mem c hd))
    rw [List.cons_append, scanStr, if_neg hc, hrec]

/-- Shape of the emitted descriptor text: the literal frame of
`imagedefsFmt` around the substituted image reference. -/
theorem imagedefsContent_shape (R T : String) :
    (imagedefsContent R T).data =
      "[\x7b\"name\":\"web\",\"imageUri\":\"".data ++ (R ++ ":" ++ T).data ++
        "\"\x7d]".data := by
  simp [imagedefsContent, imagedefsFmt, printfFmt]

/-- The decoder recovers exactly the pair (container name `web`, image
reference) from the emitted descriptor, for quote-free image references. -/
theorem parseImageDefs_content (R T : String)
    (h : ∀ c ∈ (R ++ ":" ++ T).data, c ≠ '"') :
    parseImageDefs (imagedefsContent R T).data =
      some [("web", R ++ ":" ++ T)] := by
  rw [imagedefsContent_shape]
  have e1 : "[\x7b\"name\":\"web\",\"imageUri\":\"".data ++ (R ++ ":" ++ T).data ++
      "\"\x7d]".data =
      "[\x7b\"name\":\"".data ++
        ("web".data ++ '"' :: (",\"imageUri\":\"".data ++
          ((R ++ ":" ++ T).data ++ '"' :: "\x7d]".data))) := by
    simp
  rw [e1]
  simp only [parseImageDefs, dropLit_exact, scanStr_concat "web".data _ (by decide),
    scanStr_concat _ _ h]
  rfl

/-- The declared `IMAGE_TAG` expression parses as a use-default expansion
of `CODEBUILD_RESOLVED_SOURCE_VERSION` with default word `latest`. -/
theorem parseColonDash_imageTag :
    parseColonDash imageTagDecl =
      some ("CODEBUILD_RESOLVED_SOURCE_VERSION", "latest") := rfl

/-- The resolved image tag is the use-default expansion with default
`latest`. -/
theorem resolveImageTag_eq (v : Option String) :
    resolveImageTag v = colonDashExpand v "latest" := by
  unfold resolveImageTag
  rw [parseColonDash_imageTag]

/-! ## The claims -/

set_option maxRecDepth 8192 in
/-- C1 counterexample: the claim fails as stated.  With the resolved
execution-role ARN value `arn:aws:iam::123456789012:role/stack-execrole-1T`
(a realistic value: this stack's roles are auto-created, and generated role
names can end in an uppercase character) and the template
`TASK_ROLE_ARN EXECUTION_ROLE_ARNASK_ROLE_ARN`, which contains both
tokens, the two `sed` substitutions leave an occurrence of
`TASK_ROLE_ARN` in the output: the substituted value's trailing `T`
splices with the following `ASK_ROLE_ARN` of the template. -/
theorem c1_counterexample :
    taskRoleTok <:+: "TASK_ROLE_ARN EXECUTION_ROLE_ARNASK_ROLE_ARN".data ∧
    execRoleTok <:+: "TASK_ROLE_ARN EXECUTION_ROLE_ARNASK_ROLE_ARN".data ∧
    taskRoleTok <:+:
      sedRewrite "arn:aws:iam::123456789012:role/stack-taskrole-2B".data
        "arn:aws:iam::123456789012:role/stack-execrole-1T".data
        "TASK_ROLE_ARN EXECUTION_ROLE_ARNASK_ROLE_ARN".data := by
  refine ⟨by decide, by decide, ?_⟩
  have h : sedRewrite "arn:aws:iam::123456789012:role/stack-taskrole-2B".data
      "arn:aws:iam::123456789012:role/stack-execrole-1T".data
      "TASK_ROLE_ARN EXECUTION_ROLE_ARNASK_ROLE_ARN".data =
      "arn:aws:iam::123456789012:role/stack-taskrole-2B arn:aws:iam::123456789012:role/stack-execrole-1TASK_ROLE_ARN".data := by
    simp +decide [sedRewrite, replaceAll, taskRoleTok, execRoleTok]
  rw [h]
  decide

/-- C1 as amended: Role-ARN placeholder substitution.  For every template
text containing the literal tokens `TASK_ROLE_ARN` and
`EXECUTION_ROLE_ARN`, running the two post-build `sed` substitutions with
task-role and execution-role ARN values that are non-empty, token-free and
delimited at both ends by characters outside the uppercase/underscore
placeholder alphabet (`benignValue`) yields a text containing no
occurrence of either literal token.  The delimiter conditions are exactly
what the counterexample above forces: without them the substitution can
splice a new token across a replacement boundary. -/
theorem c1_role_arn_substitution (taskArn execArn t : List Char)
    (htask : benignValue taskArn) (hexec : benignValue execArn)
    (ht1 : taskRoleTok <:+: t) (ht2 : execRoleTok <:+: t) :
    ¬ (taskRoleTok <:+: sedRewrite taskArn execArn t) ∧
    ¬ (execRoleTok <:+: sedRewrite taskArn execArn t) := by
  obtain ⟨hne_t, hh_t, hl_t, hTT, hTE⟩ := htask
  obtain ⟨hne_e, hh_e, hl_e, hET, hEE⟩ := hexec
  have hTpat : taskRoleTok ≠ [] := by decide
  have hEpat : execRoleTok ≠ [] := by decide
  have hTtok : ∀ c ∈ taskRoleTok, tokenChar c = true := by decide
  have hEtok : ∀ c ∈ execRoleTok, tokenChar c = true := by decide
  constructor
  · have h1 : ¬ taskRoleTok <:+: replaceAll taskRoleTok taskArn t :=
      replaceAll_no_tok taskRoleTok taskArn hTpat hTtok hh_t hl_t hne_t hTT
        t.length t le_rfl
    exact replaceAll_keeps_absent execRoleTok execArn taskRoleTok
      hEpat hTpat hTtok hh_e hl_e hne_e hET
      (replaceAll taskRoleTok taskArn t).length
      (replaceAll taskRoleTok taskArn t) le_rfl h1
  · exact replaceAll_no_tok execRoleTok execArn hEpat hEtok hh_e hl_e hne_e hEE
      (replaceAll taskRoleTok taskArn t).length
      (replaceAll taskRoleTok taskArn t) le_rfl

/-- Witness for C1: concrete role ARNs and a template carrying both
placeholder tokens. -/
theorem c1_witness :
    benignValue "arn:aws:iam::123456789012:role/apptask1".data ∧
    benignValue "arn:aws:iam::123456789012:role/appexec1".data ∧
    taskRoleTok <:+: "x TASK_ROLE_ARN y EXECUTION_ROLE_ARN z".data ∧
    execRoleTok <:+: "x TASK_ROLE_ARN y EXECUTION_ROLE_ARN z".data ∧
    (¬ (taskRoleTok <:+:
        sedRewrite "arn:aws:iam::123456789012:role/apptask1".data
          "arn:aws:iam::123456789012:role/appexec1".data
          "x TASK_ROLE_ARN y EXECUTION_ROLE_ARN z".data) ∧
     ¬ (execRoleTok <:+:
        sedRewrite "arn:aws:iam::123456789012:role/apptask1".data
          "arn:aws:iam::123456789012:role/appexec1".data
          "x TASK_ROLE_ARN y EXECUTION_ROLE_ARN z".data)) :=
  ⟨by decide, by decide, by decide, by decide,
    c1_role_arn_substitution _ _ _ (by decide) (by decide) (by decide) (by decide)⟩

/-- C2 (code defect witness): source line 110 is not one Python string
literal.  Scanning the committed line as a Python double-quoted string
terminates at the unescaped quote after `printf \x27[`, leaving an
unconsumed remainder that starts with the identifier character `n` — so
the committed file fails to parse, and the scanned body is not the
intended descriptor-emitting command. -/
theorem c2_printf_line_truncated :
    pyDQLiteral rawPrintfSrcLine.data =
      some ("printf \x27[\x7b".data,
        "name\":\"web\",\"imageUri\":\"%s\"\x7d]\x27 $REPOSITORY_URI:$IMAGE_TAG > imagedefinitions.json\",".data) ∧
    "printf \x27[\x7b".data ≠ printfJsonCmd.data ∧
    ("name\":\"web\",\"imageUri\":\"%s\"\x7d]\x27 $REPOSITORY_URI:$IMAGE_TAG > imagedefinitions.json\",".data).head? =
      some 'n' :=
  ⟨rfl, by decide, rfl⟩

/-- C3 fails as stated: the ignore-failure suffix is not confined to the
two copy commands — the `aws --version` probe (and both `sed` rewrites)
carry it too, so the suffixed commands of the buildspec are not exactly
the two copies. -/
theorem c3_counterexample :
    allBuildCommands.filter hasOrTrue ≠ [cpTaskdefCmd, cpAppspecCmd] := by
  decide

/-- C3 amended: the ignore-failure suffix is applied to exactly five
commands — the `aws --version` probe of pre-build, the two template copy
commands, and the two `sed` substitutions of post-build (every other
command, lacking the suffix, aborts its phase on failure under
`runCmd`). -/
theorem c3_or_true_exactly_five :
    allBuildCommands.filter hasOrTrue =
      [awsVersionCmd, cpTaskdefCmd, cpAppspecCmd, sedTaskCmd, sedExecCmd] := by
  decide

/-- C4: whichever of the optional template files are absent, the affected
copy commands fail non-fatally: all eleven post-build commands are still
attempted, the phase does not abort, and the staged output files exist
exactly when their source template did. -/
theorem c4_missing_templates_nonfatal :
    ∀ b₁ b₂ : Bool,
      (runPhase postBuildCommands (postBuildInitFiles b₁ b₂)).aborted = false ∧
      (runPhase postBuildCommands (postBuildInitFiles b₁ b₂)).ran =
        postBuildCommands.length ∧
      ((runPhase postBuildCommands (postBuildInitFiles b₁ b₂)).files.contains
        "output/taskdef.json") = b₁ ∧
      ((runPhase postBuildCommands (postBuildInitFiles b₁ b₂)).files.contains
        "output/appspec.yaml") = b₂ := by
  intro b₁ b₂
  cases b₁ <;> cases b₂ <;> exact ⟨rfl, rfl, rfl, rfl⟩

/-- C5: the pipeline's stages are, in order, Source, Build, Deploy; the
Build stage's single action consumes exactly the Source artifact, the
Deploy stage's action consumes only the Build artifact (all three of its
input slots), and every consumed artifact is produced by a strictly
earlier stage. -/
theorem c5_stage_order_and_artifact_flow (inp : StackInputs) (amb : Ambient) :
    ((buildStack inp amb).pipelineStages.map Prod.fst =
      ["Source", "Build", "Deploy"]) ∧
    ((buildStack inp amb).pipelineStages.map (fun st => st.2.map (fun a => a.inputs)) =
      [[[]], [["source_output"]],
        [["build_output", "build_output", "build_output"]]]) ∧
    ((buildStack inp amb).pipelineStages.map (fun st => st.2.map (fun a => a.outputs)) =
      [[["source_output"]], [["build_output"]], [[]]]) ∧
    consumesOnlyEarlier (buildStack inp amb).pipelineStages [] = true :=
  ⟨rfl, rfl, rfl, rfl⟩

/-- C6: at initialization the listener's default action forwards to
exactly one target group — the blue one; the green target group is not
bound to the listener (neither in the default action nor in any further
listener rule, of which there are none) and is referenced only by the
deployment group's blue/green configuration. -/
theorem c6_listener_blue_only (inp : StackInputs) (amb : Ambient) :
    ((buildStack inp amb).listener.defaultTargetGroups =
      [(buildStack inp amb).blueTG.id]) ∧
    ((buildStack inp amb).greenTG.id ∉
      (buildStack inp amb).listener.defaultTargetGroups) ∧
    ((buildStack inp amb).listener.extraRules = []) ∧
    ((buildStack inp amb).deployGroup.blueGreen.greenTargetGroup =
      (buildStack inp amb).greenTG.id) ∧
    ((buildStack inp amb).deployGroup.blueGreen.blueTargetGroup =
      (buildStack inp amb).blueTG.id) := by
  refine ⟨rfl, ?_, rfl, rfl, rfl⟩
  show "GreenTG" ∉ ["BlueTG"]
  decide

/-- C7: the image tag used by the docker build and push commands is the
declared `IMAGE_TAG` expansion — the resolved source version when it is
set and non-empty, and the literal `latest` when it is unset or empty —
and both commands reference exactly `REPOSITORY_URI:IMAGE_TAG`. -/
theorem c7_image_tag_fallback (v : Option String) (R : String) :
    parseColonDash imageTagDecl =
      some ("CODEBUILD_RESOLVED_SOURCE_VERSION", "latest") ∧
    resolveImageTag none = "latest" ∧
    resolveImageTag (some "") = "latest" ∧
    (∀ s : String, s ≠ "" → resolveImageTag (some s) = s) ∧
    expandEnv (dockerEnv R (resolveImageTag v)) dockerBuildCmd.data =
      "docker build -t ".data ++ R.data ++ ":".data ++
        (resolveImageTag v).data ++ " .".data ∧
    expandEnv (dockerEnv R (resolveImageTag v)) dockerPushCmd.data =
      "docker push ".data ++ R.data ++ ":".data ++ (resolveImageTag v).data := by
  refine ⟨rfl, rfl, rfl, ?_, ?_, ?_⟩
  · intro s hs
    rw [resolveImageTag_eq]
    simp [colonDashExpand, hs]
  · simp +decide [dockerBuildCmd, expandEnv, expandGo, flushVar, dockerEnv]
  · simp +decide [dockerPushCmd, expandEnv, expandGo, flushVar, dockerEnv]

/-- Witness for C7 at a concrete resolved source version. -/
theorem c7_witness :
    ("1a2b3c4d" : String) ≠ "" ∧ resolveImageTag (some "1a2b3c4d") = "1a2b3c4d" :=
  ⟨by decide, (c7_image_tag_fallback (some "1a2b3c4d") "R").2.2.2.1 "1a2b3c4d" (by decide)⟩

/-- C8: the source action uses the `connectionArn` context value whenever
it is supplied and non-empty and the hardcoded fallback ARN otherwise
(Python `or` semantics), while owner, repository and branch are fixed
literals in either case. -/
theorem c8_connection_identifier (inp : StackInputs) (amb : Ambient) :
    ((buildStack inp amb).sourceAction.owner = "codeavatar1") ∧
    ((buildStack inp amb).sourceAction.repo = "code-pipeline-manual-arm-cdk") ∧
    ((buildStack inp amb).sourceAction.branch = "main") ∧
    ((buildStack inp amb).sourceAction.connectionArn =
      pyOrStr inp.connectionArnContext fallbackConnectionArn) ∧
    pyOrStr none fallbackConnectionArn = fallbackConnectionArn ∧
    pyOrStr (some "") fallbackConnectionArn = fallbackConnectionArn ∧
    (∀ s : String, s ≠ "" → pyOrStr (some s) fallbackConnectionArn = s) := by
  refine ⟨rfl, rfl, rfl, rfl, rfl, rfl, ?_⟩
  intro s hs
  simp [pyOrStr, hs]

/-- Witness for C8 at a concrete supplied connection ARN. -/
theorem c8_witness :
    ("arn:aws:codestar-connections:us-east-1:111122223333:connection/demo" : String) ≠ "" ∧
    pyOrStr (some "arn:aws:codestar-connections:us-east-1:111122223333:connection/demo")
        fallbackConnectionArn =
      "arn:aws:codestar-connections:us-east-1:111122223333:connection/demo" :=
  ⟨by decide,
    (c8_connection_identifier
      ⟨"111122223333", "us-east-1",
        some "arn:aws:codestar-connections:us-east-1:111122223333:connection/demo",
        "vpc-0"⟩ ⟨0, 0⟩).2.2.2.2.2.2
      "arn:aws:codestar-connections:us-east-1:111122223333:connection/demo" (by decide)⟩

/-- C9: determinism of the definition build — for a fixed set of inputs
(environment identifier, context parameter, looked-up network), the
constructed graph has identical entity attributes across runs whose
ambient run-varying state (clock, randomness) differs arbitrarily; the
constructor reads none of it. -/
theorem c9_deterministic (inp : StackInputs) (a1 a2 : Ambient) :
    buildStack inp a1 = buildStack inp a2 := rfl

/-- C10: cross-resource naming consistency — the container added to the
task definition is named `web`, the descriptor emitted by the post-build
phase maps exactly that name, and the deploy action rewrites the
task-definition template at the single placeholder `IMAGE1_NAME` using the
image from the build-output artifact, the artifact that carries
`imagedefinitions.json`. -/
theorem c10_container_name_consistency (inp : StackInputs) (amb : Ambient) :
    ((buildStack inp amb).taskDef.containers.map (fun c => c.name) = ["web"]) ∧
    (∀ R T : String, (∀ c ∈ (R ++ ":" ++ T).data, c ≠ '"') →
      (parseImageDefs (imagedefsContent R T).data).map
          (fun l => l.map Prod.fst) = some ["web"]) ∧
    ((buildStack inp amb).deployAction.containerImageInputs =
      [⟨"build_output", "IMAGE1_NAME"⟩]) ∧
    ((buildStack inp amb).deployAction.taskDefinitionTemplateInput =
      "build_output") ∧
    ((buildStack inp amb).buildAction.outputs = ["build_output"]) ∧
    ("imagedefinitions.json" ∈ (buildStack inp amb).buildProject.artifacts) := by
  refine ⟨rfl, ?_, rfl, rfl, rfl, ?_⟩
  · intro R T h
    rw [parseImageDefs_content R T h]
    rfl
  · show "imagedefinitions.json" ∈ artifactFiles
    decide

/-- Witness for C10 at a concrete repository URI and tag. -/
theorem c10_witness :
    (∀ c ∈ ("123456789012.dkr.ecr.us-east-1.amazonaws.com/repo" ++ ":" ++ "abc123").data,
      c ≠ '"') ∧
    (parseImageDefs
        (imagedefsContent "123456789012.dkr.ecr.us-east-1.amazonaws.com/repo" "abc123").data).map
        (fun l => l.map Prod.fst) = some ["web"] :=
  ⟨by decide,
    (c10_container_name_consistency ⟨"1", "r", none, "v"⟩ ⟨0, 0⟩).2.1
      "123456789012.dkr.ecr.us-east-1.amazonaws.com/repo" "abc123" (by decide)⟩

end CpBd
